import Mathlib

/-!
Shallow embedding of the ledger server's storage layer (server/storage.ts)
and the relevant transport-level validation (server/routes.ts), together
with proofs about its read/write operations.

Timestamps are modelled as integers (milliseconds); the database is a
record of lists mirroring the relational tables of shared/schema.ts.
Row identifiers are natural numbers allocated from a counter; the SQL
string ILIKE on a pattern enclosed in percent signs is modelled as a
case-insensitive substring test; the jsonb tags column cast to text is
modelled by an explicit serialization function.
-/

namespace Ledger

/-- One day in milliseconds, as used by the trending and stats windows. -/
def dayMs : Int := 86400000

-- ==========================================================================
-- Rows (shared/schema.ts)
-- ==========================================================================

/-- A row of the facts table. -/
structure Fact where
  id : Nat
  headline : String
  currentValue : String
  category : String
  importance : String
  confidence : String
  tags : List String
  lastUpdated : Int
  createdAt : Int
  isActive : Bool
deriving DecidableEq, Repr

/-- A row of the fact_revisions table. -/
structure Revision where
  id : Nat
  factId : Nat
  previousValue : Option String
  newValue : String
  delta : String
  whyItMatters : String
  revisionType : String
  sourceName : String
  sourceUrl : Option String
  sourceTier : String
  timestamp : Int
deriving DecidableEq, Repr

/-- A row of the sources table. -/
structure Source where
  id : Nat
  name : String
  url : Option String
  tier : String
deriving DecidableEq, Repr

/-- A row of the fact_sources join table. -/
structure FactSource where
  id : Nat
  factId : Nat
  sourceId : Nat
  retrievedAt : Int
deriving DecidableEq, Repr

/-- A row of the fact_relations table. -/
structure FactRelation where
  id : Nat
  factId : Nat
  relatedFactId : Nat
deriving DecidableEq, Repr

/-- A row of the user_bookmarks table. -/
structure Bookmark where
  id : Nat
  userId : Nat
  factId : Nat
  createdAt : Int
deriving DecidableEq, Repr

/-- A row of the user_muted table. -/
structure Muted where
  id : Nat
  userId : Nat
  factId : Nat
  createdAt : Int
deriving DecidableEq, Repr

/-- The database state: the tables used by the fact layer, plus a counter
from which fresh row identifiers are allocated. -/
structure DB where
  facts : List Fact
  factRevisions : List Revision
  sources : List Source
  factSources : List FactSource
  factRelations : List FactRelation
  userBookmarks : List Bookmark
  userMuted : List Muted
  nextId : Nat
deriving DecidableEq, Repr

-- ==========================================================================
-- Generic list helpers (SQL ORDER BY ... DESC, GROUP BY, ILIKE)
-- ==========================================================================

/-- Insert an element into a list that is sorted descending by the key,
    keeping it sorted (stable: ties keep existing elements first). -/
def insertDescBy (key : α → Int) (x : α) : List α → List α
  | [] => [x]
  | y :: ys => if key y < key x then x :: y :: ys else y :: insertDescBy key x ys

/-- Stable insertion sort, descending by the key; models ORDER BY key DESC. -/
def sortDescBy (key : α → Int) : List α → List α
  | [] => []
  | x :: xs => insertDescBy key x (sortDescBy key xs)

/-- Append an element to an accumulator unless it is already present. -/
def insertNew (acc : List Nat) (x : Nat) : List Nat :=
  if acc.contains x then acc else acc ++ [x]

/-- The distinct elements of a list in order of first occurrence;
    models the grouping keys of a GROUP BY clause. -/
def firstOccurrences (l : List Nat) : List Nat :=
  l.foldl insertNew []

/-- Substring test on character lists. -/
def containsSub (pat : List Char) : List Char → Bool
  | [] => pat.isEmpty
  | c :: rest => pat.isPrefixOf (c :: rest) || containsSub pat rest

/-- Case-insensitive substring test; models SQL ILIKE with a pattern
    enclosed in percent wildcards. -/
def strContainsCI (s pat : String) : Bool :=
  containsSub (pat.data.map Char.toLower) (s.data.map Char.toLower)

/-- Serialization of the jsonb tags column to text, as in the cast used by
    searchFacts. -/
def serializeTags (tags : List String) : String :=
  "[" ++ String.intercalate ", " (tags.map (fun t => "\x22" ++ t ++ "\x22")) ++ "]"

/-- JavaScript truthiness of an optional string argument: undefined and the
    empty string are falsy. -/
def truthyS : Option String → Bool
  | none => false
  | some s => !s.isEmpty

-- ==========================================================================
-- Hydration (hydrateFact in storage.ts)
-- ==========================================================================

/-- One entry of the hydrated timeline. -/
structure TimelineEntry where
  id : Nat
  timestamp : Int
  previousValue : Option String
  newValue : String
  delta : String
  whyItMatters : String
  revisionType : String
  sourceName : String
  sourceUrl : Option String
  sourceTier : String
deriving DecidableEq, Repr

/-- One entry of the hydrated sources list. -/
structure SourceOut where
  name : String
  url : Option String
  tier : String
  retrievedAt : Int
deriving DecidableEq, Repr

/-- The full fact detail shape returned by every read endpoint. -/
structure FactWithDetails where
  id : Nat
  headline : String
  currentValue : String
  category : String
  importance : String
  confidence : String
  tags : List String
  lastUpdated : Int
  timeline : List TimelineEntry
  sources : List SourceOut
  relatedFacts : List Nat
  isBookmarked : Bool
  isMuted : Bool
deriving DecidableEq, Repr

/-- hydrateFact: assemble a fact row, its revisions (newest first), its
    linked sources, its outgoing relations and the caller's bookmark/mute
    flags into one detail object. -/
def hydrateFact (db : DB) (row : Fact) (userId : Option Nat) : FactWithDetails :=
  let revisions := sortDescBy (fun r => r.timestamp)
    (db.factRevisions.filter (fun r => r.factId == row.id))
  let factSourceRows := (db.factSources.filter (fun fs => fs.factId == row.id)).filterMap
    (fun fs => (db.sources.find? (fun s => s.id == fs.sourceId)).map
      (fun s => SourceOut.mk s.name s.url s.tier fs.retrievedAt))
  let relations := (db.factRelations.filter (fun r => r.factId == row.id)).map
    (fun r => r.relatedFactId)
  let isBookmarked := match userId with
    | some uid => db.userBookmarks.any (fun b => b.userId == uid && b.factId == row.id)
    | none => false
  let isMuted := match userId with
    | some uid => db.userMuted.any (fun m => m.userId == uid && m.factId == row.id)
    | none => false
  { id := row.id
    headline := row.headline
    currentValue := row.currentValue
    category := row.category
    importance := row.importance
    confidence := row.confidence
    tags := row.tags
    lastUpdated := row.lastUpdated
    timeline := revisions.map (fun r =>
      TimelineEntry.mk r.id r.timestamp r.previousValue r.newValue r.delta
        r.whyItMatters r.revisionType r.sourceName r.sourceUrl r.sourceTier)
    sources := factSourceRows
    relatedFacts := relations
    isBookmarked := isBookmarked
    isMuted := isMuted }

-- ==========================================================================
-- Read path (storage.ts)
-- ==========================================================================

/-- The optional filters and pagination of getFacts. -/
structure FactsQuery where
  category : Option String
  importance : Option String
  confidence : Option String
  limit : Nat
  offset : Nat
  userId : Option Nat
deriving DecidableEq, Repr

/-- An optional exact-match filter: absent means no constraint. -/
def matchOpt (o : Option String) (v : String) : Bool :=
  match o with
  | none => true
  | some c => c == v

/-- The WHERE conditions of getFacts: active, plus each supplied filter. -/
def factMatchesQuery (q : FactsQuery) (f : Fact) : Bool :=
  f.isActive && matchOpt q.category f.category
    && matchOpt q.importance f.importance && matchOpt q.confidence f.confidence

/-- getFacts: one page (ordered by lastUpdated descending, offset/limit)
    of the active facts matching the filters, hydrated, together with the
    total count over the same WHERE conditions. -/
def getFacts (db : DB) (q : FactsQuery) : List FactWithDetails × Nat :=
  let matching := db.facts.filter (factMatchesQuery q)
  let page := ((sortDescBy (fun f => f.lastUpdated) matching).drop q.offset).take q.limit
  (page.map (fun row => hydrateFact db row q.userId), matching.length)

/-- getFactById: look a fact up by identifier only (no active filter) and
    hydrate it. -/
def getFactById (db : DB) (id : Nat) (userId : Option Nat) : Option FactWithDetails :=
  (db.facts.find? (fun f => f.id == id)).map (fun row => hydrateFact db row userId)

/-- The revisions whose timestamp is inside the trailing 24-hour window. -/
def recentRevisions (db : DB) (now : Int) : List Revision :=
  db.factRevisions.filter (fun r => now - dayMs < r.timestamp)

/-- Per-fact revision counts over the trailing 24-hour window, keyed by
    fact identifier; models the GROUP BY of getTrendingFacts. -/
def trendingPairs (db : DB) (now : Int) : List (Nat × Nat) :=
  let recent := recentRevisions db now
  (firstOccurrences (recent.map (fun r => r.factId))).map
    (fun fid => (fid, (recent.filter (fun r => r.factId == fid)).length))

/-- The number of revisions of one fact inside the trailing 24-hour window. -/
def revCount24 (db : DB) (now : Int) (fid : Nat) : Nat :=
  ((recentRevisions db now).filter (fun r => r.factId == fid)).length

/-- The per-fact window counts ordered descending by count and capped at
    the requested limit: the rows of the trending grouping query. -/
def trendingSelected (db : DB) (now : Int) (limit : Nat) : List (Nat × Nat) :=
  (sortDescBy (fun p => (p.2 : Int)) (trendingPairs db now)).take limit

/-- getTrendingFacts: the facts with the most revisions in the last 24
    hours, hydrated in that order; falls back to the most recently updated
    active facts when no revision is in the window. -/
def getTrendingFacts (db : DB) (now : Int) (limit : Nat) (userId : Option Nat) :
    List FactWithDetails :=
  if (trendingSelected db now limit).isEmpty then
    (getFacts db (FactsQuery.mk none none none limit 0 userId)).1
  else
    (((trendingSelected db now limit).map (fun p => p.1)).filterMap
      (fun fid => db.facts.find? (fun f => f.id == fid))).map
      (fun row => hydrateFact db row userId)

/-- getDisputedFacts: all active facts with disputed confidence, ordered by
    lastUpdated descending, hydrated. -/
def getDisputedFacts (db : DB) (userId : Option Nat) : List FactWithDetails :=
  (sortDescBy (fun f => f.lastUpdated)
    (db.facts.filter (fun f => f.confidence == "disputed" && f.isActive))).map
    (fun row => hydrateFact db row userId)

/-- The fact-level search criterion of searchFacts: active, and a
    case-insensitive substring hit on headline, currentValue or the
    serialized tags. -/
def factLevelMatch (q : String) (f : Fact) : Bool :=
  f.isActive && (strContainsCI f.headline q || strContainsCI f.currentValue q
    || strContainsCI (serializeTags f.tags) q)

/-- The revision-level search criterion of searchFacts. -/
def revisionMatch (q : String) (r : Revision) : Bool :=
  strContainsCI r.delta q || strContainsCI r.whyItMatters q || strContainsCI r.newValue q

/-- The fact-level result rows of searchFacts: ordered by lastUpdated
    descending, capped at 50. -/
def searchRows (db : DB) (q : String) : List Fact :=
  (sortDescBy (fun f => f.lastUpdated) (db.facts.filter (factLevelMatch q))).take 50

/-- The distinct fact identifiers reached through revision matches,
    capped at 20. -/
def searchRevisionHitIds (db : DB) (q : String) : List Nat :=
  (firstOccurrences ((db.factRevisions.filter (revisionMatch q)).map
    (fun r => r.factId))).take 20

/-- The revision-hit identifiers not already present among the fact-level
    rows. -/
def searchMissingIds (db : DB) (q : String) : List Nat :=
  (searchRevisionHitIds db q).filter
    (fun fid => !((searchRows db q).any (fun f => f.id == fid)))

/-- The active facts fetched for the revision-only identifiers. -/
def searchExtra (db : DB) (q : String) : List Fact :=
  db.facts.filter (fun f => (searchMissingIds db q).contains f.id && f.isActive)

/-- searchFacts: fact-level matches first, then the facts found only via
    revision matches, all hydrated. -/
def searchFacts (db : DB) (q : String) (userId : Option Nat) : List FactWithDetails :=
  (searchRows db q ++ searchExtra db q).map (fun row => hydrateFact db row userId)

-- ==========================================================================
-- Write path (storage.ts)
-- ==========================================================================

/-- The insertable fact attributes (insertFactSchema: id and createdAt are
    omitted and generated). -/
structure InsertFact where
  headline : String
  currentValue : String
  category : String
  importance : String
  confidence : String
  tags : List String
  lastUpdated : Int
  isActive : Bool
deriving DecidableEq, Repr

/-- The insertable revision attributes without the owning fact identifier. -/
structure RevInput where
  previousValue : Option String
  newValue : String
  delta : String
  whyItMatters : String
  revisionType : String
  sourceName : String
  sourceUrl : Option String
  sourceTier : String
  timestamp : Int
deriving DecidableEq, Repr

/-- One entry of the sourceNames argument of createFact. -/
structure SourceInput where
  name : String
  url : Option String
  tier : String
deriving DecidableEq, Repr

/-- Build a facts row from insert attributes and a fresh identifier. -/
def mkFactRow (id : Nat) (d : InsertFact) (createdAt : Int) : Fact :=
  Fact.mk id d.headline d.currentValue d.category d.importance d.confidence
    d.tags d.lastUpdated createdAt d.isActive

/-- Build a fact_revisions row from insert attributes and a fresh identifier. -/
def mkRevisionRow (id : Nat) (factId : Nat) (r : RevInput) : Revision :=
  Revision.mk id factId r.previousValue r.newValue r.delta r.whyItMatters
    r.revisionType r.sourceName r.sourceUrl r.sourceTier r.timestamp

/-- upsertSource: return the existing source with this name, or insert one
    with the given url and tier (first write wins). -/
def upsertSource (db : DB) (name : String) (url : Option String) (tier : String) :
    DB × Nat :=
  match db.sources.find? (fun s => s.name == name) with
  | some s => (db, s.id)
  | none =>
    ({ db with
        sources := db.sources ++ [Source.mk db.nextId name url tier]
        nextId := db.nextId + 1 }, db.nextId)

/-- Insert a fact_sources link unless the (fact, source) pair already
    exists (ON CONFLICT DO NOTHING on the unique index). -/
def linkFactSource (db : DB) (factId : Nat) (sourceId : Nat) (now : Int) : DB :=
  if db.factSources.any (fun fs => fs.factId == factId && fs.sourceId == sourceId) then db
  else
    { db with
        factSources := db.factSources ++ [FactSource.mk db.nextId factId sourceId now]
        nextId := db.nextId + 1 }

/-- A write-sequence state for failure injection: each database write
    statement is numbered in execution order; when the counter reaches the
    injected index the statement throws and every later statement of the
    call is skipped (there is no enclosing transaction, so earlier writes
    stay persisted). With no injected failure this is the straight-line
    execution of the source. -/
structure WriteSt where
  db : DB
  next : Nat
  failed : Bool
deriving DecidableEq, Repr

/-- Run one numbered write statement, unless the call already failed or the
    injected failure index is reached. -/
def runWrite (failAt : Option Nat) (s : WriteSt) (w : DB → DB) : WriteSt :=
  if s.failed then s
  else if failAt == some s.next then WriteSt.mk s.db (s.next + 1) true
  else WriteSt.mk (w s.db) (s.next + 1) false

/-- upsertSource under failure injection: a select, then at most one
    numbered insert. -/
def runUpsertSource (failAt : Option Nat) (s : WriteSt) (name : String)
    (url : Option String) (tier : String) : WriteSt × Nat :=
  if s.failed then (s, 0)
  else
    match s.db.sources.find? (fun src => src.name == name) with
    | some src => (s, src.id)
    | none =>
      let sid := s.db.nextId
      (runWrite failAt s (fun db =>
        { db with
            sources := db.sources ++ [Source.mk db.nextId name url tier]
            nextId := db.nextId + 1 }), sid)

/-- createFact with failure injection: insert the fact, insert the initial
    revision, then per source upsert the outlet and link it. Writes are
    numbered in execution order; failAt of none is the plain execution. -/
def createFactFI (db : DB) (now : Int) (data : InsertFact) (rev : RevInput)
    (sourceNames : List SourceInput) (failAt : Option Nat) : DB × Bool :=
  let s0 := WriteSt.mk db 0 false
  let fid := db.nextId
  let s1 := runWrite failAt s0 (fun d =>
    { d with facts := d.facts ++ [mkFactRow d.nextId data now], nextId := d.nextId + 1 })
  let s2 := runWrite failAt s1 (fun d =>
    { d with
        factRevisions := d.factRevisions ++ [mkRevisionRow d.nextId fid rev]
        nextId := d.nextId + 1 })
  let sF := sourceNames.foldl
    (fun s src =>
      let su := runUpsertSource failAt s src.name src.url src.tier
      runWrite failAt su.1 (fun d => linkFactSource d fid su.2 now))
    s2
  (sF.db, !sF.failed)

/-- createFact: the plain (failure-free) execution, returning the hydrated
    fact fetched back by identifier. -/
def createFact (db : DB) (now : Int) (data : InsertFact) (rev : RevInput)
    (sourceNames : List SourceInput) : DB × Option FactWithDetails :=
  let out := createFactFI db now data rev sourceNames none
  (out.1, getFactById out.1 db.nextId none)

/-- The conditional projection update of addRevision: lastUpdated is always
    set to now; currentValue, confidence and importance are overwritten
    only when the corresponding argument is truthy (supplied and
    non-empty). -/
def applyRevisionUpdates (now : Int) (ncv nc ni : Option String) (f : Fact) : Fact :=
  let f1 := { f with lastUpdated := now }
  let f2 := if truthyS ncv then { f1 with currentValue := ncv.getD f1.currentValue } else f1
  let f3 := if truthyS nc then { f2 with confidence := nc.getD f2.confidence } else f2
  if truthyS ni then { f3 with importance := ni.getD f3.importance } else f3

/-- addRevision: insert the revision unconditionally, update the fact's
    denormalized fields, upsert and link the revision's source when the
    source name is truthy, and return the hydrated fact. -/
def addRevision (db : DB) (now : Int) (factId : Nat) (rev : RevInput)
    (ncv nc ni : Option String) : DB × Option FactWithDetails :=
  let db1 := { db with
    factRevisions := db.factRevisions ++ [mkRevisionRow db.nextId factId rev]
    nextId := db.nextId + 1 }
  let db2 := { db1 with
    facts := db1.facts.map (fun f =>
      if f.id == factId then applyRevisionUpdates now ncv nc ni f else f) }
  let db3 :=
    if !rev.sourceName.isEmpty then
      let su := upsertSource db2 rev.sourceName rev.sourceUrl rev.sourceTier
      linkFactSource su.1 factId su.2 now
    else db2
  (db3, getFactById db3 factId none)

/-- toggleBookmark: delete the (user, fact) row if present and report
    false, else insert one and report true. -/
def toggleBookmark (db : DB) (now : Int) (userId : Nat) (factId : Nat) : DB × Bool :=
  match db.userBookmarks.find? (fun b => b.userId == userId && b.factId == factId) with
  | some existing =>
    ({ db with
        userBookmarks := db.userBookmarks.filter (fun b => !(b.id == existing.id)) },
      false)
  | none =>
    ({ db with
        userBookmarks := db.userBookmarks ++ [Bookmark.mk db.nextId userId factId now]
        nextId := db.nextId + 1 }, true)

-- ==========================================================================
-- Transport-level validation (routes.ts, zod schemas)
-- ==========================================================================

/-- Membership in the category enum. -/
def validCategory (s : String) : Bool :=
  ["economy", "geopolitics", "technology", "science", "health", "climate",
    "legal", "security"].contains s

/-- Membership in the importance enum. -/
def validImportance (s : String) : Bool :=
  ["breaking", "high", "medium", "low"].contains s

/-- Membership in the confidence enum. -/
def validConfidence (s : String) : Bool :=
  ["confirmed", "developing", "disputed", "retracted"].contains s

/-- Membership in the revision-type enum. -/
def validRevisionType (s : String) : Bool :=
  ["initial", "update", "correction", "escalation", "resolution"].contains s

/-- Membership in the source-tier enum. -/
def validSourceTier (s : String) : Bool :=
  ["primary", "wire", "reporting", "analysis"].contains s

/-- The revision object of the create-fact request body (absent and null
    previousValue both flatten to none, as the handler coalesces them). -/
structure RevisionBody where
  previousValue : Option String
  newValue : String
  delta : String
  whyItMatters : String
  revisionType : String
  sourceName : String
  sourceUrl : Option String
  sourceTier : String
deriving DecidableEq, Repr

/-- The create-fact request body. -/
structure CreateFactBody where
  headline : String
  currentValue : String
  category : String
  importance : String
  confidence : String
  tags : List String
  revision : RevisionBody
  sources : List SourceInput
deriving DecidableEq, Repr

/-- The zod validation of the create-fact body: non-empty headline and
    currentValue, enum membership, and at least one source. The revision's
    previousValue is nullable and optional with no further constraint. -/
def validCreateBody (b : CreateFactBody) : Bool :=
  !b.headline.isEmpty && !b.currentValue.isEmpty
    && validCategory b.category && validImportance b.importance
    && validConfidence b.confidence
    && validRevisionType b.revision.revisionType
    && validSourceTier b.revision.sourceTier
    && !b.sources.isEmpty

/-- The outcome of a route handler: the resulting database state together
    with either the response payload or a client-visible error. -/
structure RouteOut where
  db : DB
  result : Except String FactWithDetails
deriving Repr

/-- The create-fact route handler: zod validation rejects before any
    write; otherwise createFact runs with the current time stamped on the
    fact and the initial revision. -/
def createFactRoute (db : DB) (now : Int) (b : CreateFactBody) : RouteOut :=
  if validCreateBody b then
    let out := createFact db now
      (InsertFact.mk b.headline b.currentValue b.category b.importance
        b.confidence b.tags now true)
      (RevInput.mk b.revision.previousValue b.revision.newValue b.revision.delta
        b.revision.whyItMatters b.revision.revisionType b.revision.sourceName
        b.revision.sourceUrl b.revision.sourceTier now)
      b.sources
    RouteOut.mk out.1 (match out.2 with
      | some fwd => Except.ok fwd
      | none => Except.error "Failed to create fact")
  else RouteOut.mk db (Except.error "Invalid fact data")

/-- The add-revision request body (previousValue flattened as above). -/
structure AddRevisionBody where
  previousValue : Option String
  newValue : String
  delta : String
  whyItMatters : String
  revisionType : String
  sourceName : String
  sourceUrl : Option String
  sourceTier : String
  newCurrentValue : Option String
  newConfidence : Option String
  newImportance : Option String
deriving DecidableEq, Repr

/-- The zod validation of the add-revision body. -/
def validAddRevisionBody (b : AddRevisionBody) : Bool :=
  validRevisionType b.revisionType && validSourceTier b.sourceTier
    && (match b.newConfidence with | none => true | some c => validConfidence c)
    && (match b.newImportance with | none => true | some i => validImportance i)

/-- The add-revision route handler: zod validation, then an existence
    check answering 404 for an unknown fact, then addRevision. -/
def addRevisionRoute (db : DB) (now : Int) (factId : Nat) (b : AddRevisionBody) :
    RouteOut :=
  if validAddRevisionBody b then
    match getFactById db factId none with
    | none => RouteOut.mk db (Except.error "Fact not found")
    | some _ =>
      let out := addRevision db now factId
        (RevInput.mk b.previousValue b.newValue b.delta b.whyItMatters
          b.revisionType b.sourceName b.sourceUrl b.sourceTier now)
        b.newCurrentValue b.newConfidence b.newImportance
      RouteOut.mk out.1 (match out.2 with
        | some fwd => Except.ok fwd
        | none => Except.error "Failed to add revision")
  else RouteOut.mk db (Except.error "Invalid revision data")

-- ==========================================================================
-- Lemmas about the list helpers
-- ==========================================================================

theorem insertDescBy_perm (key : α → Int) (x : α) (l : List α) :
    (insertDescBy key x l).Perm (x :: l) := by
  induction l with
  | nil => simp [insertDescBy]
  | cons y ys ih =>
    simp only [insertDescBy]
    split
    · exact List.Perm.refl _
    · exact (ih.cons y).trans (List.Perm.swap x y ys)

theorem sortDescBy_perm (key : α → Int) (l : List α) :
    (sortDescBy key l).Perm l := by
  induction l with
  | nil => simp [sortDescBy]
  | cons x xs ih =>
    exact (insertDescBy_perm key x (sortDescBy key xs)).trans (ih.cons x)

theorem mem_sortDescBy {key : α → Int} {l : List α} {x : α} :
    x ∈ sortDescBy key l ↔ x ∈ l :=
  (sortDescBy_perm key l).mem_iff

theorem pairwise_insertDescBy (key : α → Int) (x : α) {l : List α}
    (h : l.Pairwise (fun a b => key b ≤ key a)) :
    (insertDescBy key x l).Pairwise (fun a b => key b ≤ key a) := by
  induction l with
  | nil => simp [insertDescBy]
  | cons y ys ih =>
    rcases List.pairwise_cons.mp h with ⟨hy, hys⟩
    simp only [insertDescBy]
    split
    case isTrue hlt =>
      refine List.pairwise_cons.mpr ⟨?_, h⟩
      intro z hz
      rcases List.mem_cons.mp hz with rfl | hz2
      · exact le_of_lt hlt
      · exact le_trans (hy z hz2) (le_of_lt hlt)
    case isFalse hge =>
      refine List.pairwise_cons.mpr ⟨?_, ih hys⟩
      intro z hz
      have hz3 := (insertDescBy_perm key x ys).mem_iff.mp hz
      rcases List.mem_cons.mp hz3 with rfl | hz4
      · exact le_of_not_lt hge
      · exact hy z hz4

theorem pairwise_sortDescBy (key : α → Int) (l : List α) :
    (sortDescBy key l).Pairwise (fun a b => key b ≤ key a) := by
  induction l with
  | nil => simp [sortDescBy]
  | cons x xs ih => exact pairwise_insertDescBy key x ih

theorem pairwise_filterMap {f : α → Option β} {R : α → α → Prop} {S : β → β → Prop}
    (h : ∀ a b x y, R a b → f a = some x → f b = some y → S x y)
    {l : List α} (hl : l.Pairwise R) : (l.filterMap f).Pairwise S := by
  induction hl with
  | nil => simp
  | @cons a l2 ha _ ih =>
    cases hfa : f a with
    | none => simpa [List.filterMap_cons, hfa] using ih
    | some b =>
      simp only [List.filterMap_cons, hfa]
      refine List.pairwise_cons.mpr ⟨?_, ih⟩
      intro y hy
      rcases List.mem_filterMap.mp hy with ⟨c, hc, hfc⟩
      exact h a c b y (ha c hc) hfa hfc

theorem map_id_filterMap_find (ids : List Nat) (facts : List Fact) :
    (ids.filterMap (fun fid => facts.find? (fun f => f.id == fid))).map Fact.id
      = ids.filter (fun fid => facts.any (fun f => f.id == fid)) := by
  induction ids with
  | nil => rfl
  | cons i is ih =>
    simp only [List.filterMap_cons, List.filter_cons]
    cases hfind : facts.find? (fun f => f.id == i) with
    | none =>
      have hany : facts.any (fun f => f.id == i) = false := by
        cases hda : facts.any (fun f => f.id == i)
        · rfl
        · rcases List.any_eq_true.mp hda with ⟨f, hf, hfi⟩
          exact absurd hfi (List.find?_eq_none.mp hfind f hf)
      simp [hany, ih]
    | some f =>
      have hfi : (f.id == i) = true := by simpa using List.find?_some hfind
      have hfm : f ∈ facts := List.mem_of_find?_eq_some hfind
      have hany : facts.any (fun f => f.id == i) = true :=
        List.any_eq_true.mpr ⟨f, hfm, hfi⟩
      simp only [hany, if_true, List.map_cons, ih]
      exact congrArg (· :: _) (by simpa using hfi)

theorem find?_id_of_nodup {facts : List Fact} {f : Fact}
    (hnd : (facts.map Fact.id).Nodup) (hf : f ∈ facts) :
    facts.find? (fun g => g.id == f.id) = some f := by
  induction facts with
  | nil => cases hf
  | cons g gs ih =>
    rcases List.mem_cons.mp hf with rfl | hmem
    · exact List.find?_cons_of_pos _ (by simp)
    · have hnd2 : (gs.map Fact.id).Nodup := (List.nodup_cons.mp hnd).2
      have hgne : ¬ g.id = f.id := by
        intro he
        exact (List.nodup_cons.mp hnd).1 (he ▸ List.mem_map_of_mem Fact.id hmem)
      rw [List.find?_cons_of_neg _ (by simp [hgne])]
      exact ih hnd2 hmem

theorem mem_insertNew {acc : List Nat} {x y : Nat} :
    x ∈ insertNew acc y ↔ x ∈ acc ∨ x = y := by
  unfold insertNew
  split
  case isTrue h =>
    constructor
    · exact Or.inl
    · rintro (hx | rfl)
      · exact hx
      · simpa using h
  case isFalse h => simp

theorem mem_foldl_insertNew (l : List Nat) :
    ∀ acc x, x ∈ l.foldl insertNew acc ↔ x ∈ acc ∨ x ∈ l := by
  induction l with
  | nil => simp
  | cons y ys ih =>
    intro acc x
    rw [List.foldl_cons, ih, mem_insertNew, List.mem_cons]
    tauto

theorem mem_firstOccurrences {l : List Nat} {x : Nat} :
    x ∈ firstOccurrences l ↔ x ∈ l := by
  simpa [firstOccurrences] using mem_foldl_insertNew l [] x

theorem find?_append_none {p : α → Bool} {l₁ l₂ : List α} (h : l₁.find? p = none) :
    (l₁ ++ l₂).find? p = l₂.find? p := by
  induction l₁ with
  | nil => simp
  | cons a l ih =>
    cases hpa : p a
    · rw [List.cons_append, List.find?_cons_of_neg _ (by simp [hpa])]
      apply ih
      rwa [List.find?_cons_of_neg _ (by simp [hpa])] at h
    · rw [List.find?_cons_of_pos _ hpa] at h
      exact absurd h (by simp)

theorem hydrateFact_id (db : DB) (row : Fact) (uid : Option Nat) :
    (hydrateFact db row uid).id = row.id := rfl

theorem linkFactSource_facts (db : DB) (a b : Nat) (t : Int) :
    (linkFactSource db a b t).facts = db.facts := by
  unfold linkFactSource
  split <;> rfl

theorem upsertSource_facts (db : DB) (n : String) (u : Option String) (t : String) :
    (upsertSource db n u t).1.facts = db.facts := by
  unfold upsertSource
  split <;> rfl

-- ==========================================================================
-- Concrete fixtures for witnesses and counterexamples
-- ==========================================================================

/-- The empty database. -/
def dbEmpty : DB := DB.mk [] [] [] [] [] [] [] 0

/-- A single source attribution input. -/
def srcX : SourceInput := SourceInput.mk "x" none "primary"

/-- A create-fact body whose initial revision carries a non-null
    previousValue. -/
def bodyPV : CreateFactBody :=
  CreateFactBody.mk "h" "v" "economy" "medium" "developing" []
    (RevisionBody.mk (some "p") "n" "d" "w" "initial" "x" none "reporting")
    [srcX]

/-- Insert attributes for the atomicity counterexample. -/
def dataC2 : InsertFact :=
  InsertFact.mk "h" "v" "economy" "medium" "developing" [] 100 true

/-- Initial-revision attributes for the atomicity counterexample. -/
def revC2 : RevInput :=
  RevInput.mk none "v" "d" "w" "initial" "x" none "reporting" 100

/-- A single active fact row with currentValue 5%. -/
def factA : Fact :=
  Fact.mk 0 "h" "5%" "economy" "medium" "developing" [] 0 0 true

/-- A database holding just factA. -/
def dbOneFact : DB := DB.mk [factA] [] [] [] [] [] [] 1

/-- Update-revision attributes used against factA. -/
def revU : RevInput :=
  RevInput.mk (some "5%") "6%" "d" "w" "update" "x" none "reporting" 50

/-- A valid add-revision body. -/
def bodyRev : AddRevisionBody :=
  AddRevisionBody.mk none "6%" "d" "w" "update" "x" none "reporting" none none none

/-- An inactive fact row. -/
def factInactive : Fact :=
  Fact.mk 7 "hidden" "v" "economy" "medium" "disputed" [] 10 0 false

/-- A revision of the inactive fact with a fresh timestamp. -/
def revInactive : Revision :=
  Revision.mk 0 7 none "v" "d" "w" "update" "x" none "reporting" 990

/-- A database holding one inactive fact and one in-window revision of it
    (with now = 1000, the 24-hour window covers timestamp 990). -/
def dbInactive : DB := DB.mk [factInactive] [revInactive] [] [] [] [] [] 8

/-- An active fact whose headline matches the query string q, with
    lastUpdated descending in the identifier so the fact-level search order
    is the identifier order. -/
def mkFactQ (i : Nat) : Fact :=
  Fact.mk i "q" "v" "economy" "medium" "developing" [] (-(i : Int)) 0 true

/-- Fifty-one active facts all matching the fact-level search criterion. -/
def dbSearch51 : DB :=
  DB.mk ((List.range 51).map mkFactQ) [] [] [] [] [] [] 51

/-- A two-fact search database: fact 0 matches on its headline, fact 1 only
    through a revision's whyItMatters text. -/
def dbSearch2 : DB :=
  DB.mk
    [Fact.mk 0 "Inflation up" "v" "economy" "medium" "developing" [] 5 0 true,
      Fact.mk 1 "other" "v" "economy" "medium" "developing" [] 9 0 true]
    [Revision.mk 0 1 none "n" "d" "inflation context" "update" "x" none "reporting" 1]
    [] [] [] [] [] 2

/-- A create-fact body with an empty source list. -/
def bodyNoSrc : CreateFactBody :=
  CreateFactBody.mk "h" "v" "economy" "medium" "developing" []
    (RevisionBody.mk none "n" "d" "w" "initial" "x" none "reporting")
    []

-- ==========================================================================
-- C7 — getFacts total count
-- ==========================================================================

/-- C7: for every filter (category/importance/confidence) and every limit
    and offset, the total returned by getFacts equals the number of all
    active facts satisfying that same filter predicate, independent of
    which page (limit/offset) was requested. -/
theorem getFacts_total_independent (db : DB) (cat imp conf : Option String)
    (l o : Nat) (uid : Option Nat) (l2 o2 : Nat) (uid2 : Option Nat) :
    (getFacts db (FactsQuery.mk cat imp conf l o uid)).2
        = (getFacts db (FactsQuery.mk cat imp conf l2 o2 uid2)).2
      ∧ (getFacts db (FactsQuery.mk cat imp conf l o uid)).2
        = (db.facts.filter (fun f => f.isActive && matchOpt cat f.category
            && matchOpt imp f.importance && matchOpt conf f.confidence)).length :=
  ⟨rfl, rfl⟩

-- ==========================================================================
-- C3 — addRevision on a missing fact
-- ==========================================================================

/-- C3: for every factId that does not reference an existing fact, the
    add-revision operation fails with the client-visible miss "Fact not
    found" and leaves the database (in particular the revision ledger)
    unchanged. -/
theorem addRevision_missing_fact_not_found (db : DB) (now : Int) (factId : Nat)
    (b : AddRevisionBody) (hv : validAddRevisionBody b = true)
    (hno : ∀ f ∈ db.facts, f.id ≠ factId) :
    (addRevisionRoute db now factId b).result = Except.error "Fact not found"
      ∧ (addRevisionRoute db now factId b).db = db := by
  have hfind : db.facts.find? (fun f => f.id == factId) = none :=
    List.find?_eq_none.mpr (fun f hf => by simp [hno f hf])
  have hbyid : getFactById db factId none = none := by
    simp [getFactById, hfind]
  constructor <;> simp [addRevisionRoute, hv, hbyid]

/-- Witness for C3 at a concrete empty database and fact identifier 3. -/
theorem addRevision_missing_fact_not_found_witness :
    (addRevisionRoute dbEmpty 50 3 bodyRev).result = Except.error "Fact not found"
      ∧ (addRevisionRoute dbEmpty 50 3 bodyRev).db = dbEmpty :=
  addRevision_missing_fact_not_found dbEmpty 50 3 bodyRev (by decide) (by decide)

-- ==========================================================================
-- C1 — createFact input validation
-- ==========================================================================

/-- C1 counterexample: a creation request whose initial revision carries a
    non-null previousValue is not rejected — it succeeds and persists both
    the fact row and the revision row (with previousValue "p"). -/
theorem createFactRoute_accepts_nonnull_previousValue :
    bodyPV.revision.previousValue = some "p"
      ∧ (createFactRoute dbEmpty 100 bodyPV).result.isOk = true
      ∧ (createFactRoute dbEmpty 100 bodyPV).db.facts.length = 1
      ∧ ((createFactRoute dbEmpty 100 bodyPV).db.factRevisions.map
          (fun r => r.previousValue)) = [some "p"] := by
  decide

/-- C1 as amended: the transport validation rejects an empty source list
    before anything is persisted (the database is returned unchanged); the
    non-null-previousValue half of the original claim is refuted by the
    counterexample. -/
theorem createFact_rejects_empty_sources (db : DB) (now : Int) (b : CreateFactBody)
    (h : b.sources = []) :
    (createFactRoute db now b).result = Except.error "Invalid fact data"
      ∧ (createFactRoute db now b).db = db := by
  have hv : validCreateBody b = false := by
    simp [validCreateBody, h]
  constructor <;> simp [createFactRoute, hv]

/-- Witness for the amended C1 at a concrete body with no sources. -/
theorem createFact_rejects_empty_sources_witness :
    (createFactRoute dbEmpty 100 bodyNoSrc).result = Except.error "Invalid fact data"
      ∧ (createFactRoute dbEmpty 100 bodyNoSrc).db = dbEmpty :=
  createFact_rejects_empty_sources dbEmpty 100 bodyNoSrc rfl

-- ==========================================================================
-- C2 — createFact is not atomic
-- ==========================================================================

/-- C2: when the fact-source linking write (write number 3 of this call)
    throws, the already persisted fact row and initial revision row stay in
    the database: createFact is not all-or-nothing. -/
theorem createFact_link_failure_leaves_rows :
    (createFactFI dbEmpty 100 dataC2 revC2 [srcX] (some 3)).2 = false
      ∧ (createFactFI dbEmpty 100 dataC2 revC2 [srcX] (some 3)).1.facts.length = 1
      ∧ (createFactFI dbEmpty 100 dataC2 revC2 [srcX] (some 3)).1.factRevisions.length = 1
      ∧ (createFactFI dbEmpty 100 dataC2 revC2 [srcX] (some 3)).1.factSources = [] := by
  decide

-- ==========================================================================
-- C4 — addRevision conditional update and frame
-- ==========================================================================

theorem truthyS_none : truthyS none = false := rfl

theorem truthyS_some (s : String) : truthyS (some s) = !s.isEmpty := rfl

theorem applyRevisionUpdates_lastUpdated (now : Int) (ncv nc ni : Option String)
    (f : Fact) : (applyRevisionUpdates now ncv nc ni f).lastUpdated = now := by
  cases hncv : truthyS ncv <;> cases hnc : truthyS nc <;> cases hni : truthyS ni <;>
    simp [applyRevisionUpdates, hncv, hnc, hni]

theorem applyRevisionUpdates_currentValue_some (now : Int) (ncv nc ni : Option String)
    (f : Fact) (s : String) (h : ncv = some s) (hs : s.isEmpty = false) :
    (applyRevisionUpdates now ncv nc ni f).currentValue = s := by
  subst h
  cases hnc : truthyS nc <;> cases hni : truthyS ni <;>
    simp [applyRevisionUpdates, truthyS_some, hs, hnc, hni]

theorem applyRevisionUpdates_currentValue_none (now : Int) (ncv nc ni : Option String)
    (f : Fact) (h : truthyS ncv = false) :
    (applyRevisionUpdates now ncv nc ni f).currentValue = f.currentValue := by
  cases hnc : truthyS nc <;> cases hni : truthyS ni <;>
    simp [applyRevisionUpdates, h, hnc, hni]

theorem applyRevisionUpdates_confidence_some (now : Int) (ncv nc ni : Option String)
    (f : Fact) (s : String) (h : nc = some s) (hs : s.isEmpty = false) :
    (applyRevisionUpdates now ncv nc ni f).confidence = s := by
  subst h
  cases hncv : truthyS ncv <;> cases hni : truthyS ni <;>
    simp [applyRevisionUpdates, truthyS_some, hs, hncv, hni]

theorem applyRevisionUpdates_confidence_none (now : Int) (ncv nc ni : Option String)
    (f : Fact) (h : truthyS nc = false) :
    (applyRevisionUpdates now ncv nc ni f).confidence = f.confidence := by
  cases hncv : truthyS ncv <;> cases hni : truthyS ni <;>
    simp [applyRevisionUpdates, h, hncv, hni]

theorem applyRevisionUpdates_importance_some (now : Int) (ncv nc ni : Option String)
    (f : Fact) (s : String) (h : ni = some s) (hs : s.isEmpty = false) :
    (applyRevisionUpdates now ncv nc ni f).importance = s := by
  subst h
  cases hncv : truthyS ncv <;> cases hnc : truthyS nc <;>
    simp [applyRevisionUpdates, truthyS_some, hs, hncv, hnc]

theorem applyRevisionUpdates_importance_none (now : Int) (ncv nc ni : Option String)
    (f : Fact) (h : truthyS ni = false) :
    (applyRevisionUpdates now ncv nc ni f).importance = f.importance := by
  cases hncv : truthyS ncv <;> cases hnc : truthyS nc <;>
    simp [applyRevisionUpdates, h, hncv, hnc]

theorem applyRevisionUpdates_frame (now : Int) (ncv nc ni : Option String) (f : Fact) :
    (applyRevisionUpdates now ncv nc ni f).id = f.id
      ∧ (applyRevisionUpdates now ncv nc ni f).headline = f.headline
      ∧ (applyRevisionUpdates now ncv nc ni f).category = f.category
      ∧ (applyRevisionUpdates now ncv nc ni f).tags = f.tags
      ∧ (applyRevisionUpdates now ncv nc ni f).isActive = f.isActive
      ∧ (applyRevisionUpdates now ncv nc ni f).createdAt = f.createdAt := by
  cases hncv : truthyS ncv <;> cases hnc : truthyS nc <;> cases hni : truthyS ni <;>
    simp [applyRevisionUpdates, hncv, hnc, hni]

/-- The facts table after addRevision is the original table with only the
    targeted identifier rewritten through applyRevisionUpdates. -/
theorem addRevision_facts_eq (db : DB) (now : Int) (factId : Nat) (rev : RevInput)
    (ncv nc ni : Option String) :
    (addRevision db now factId rev ncv nc ni).1.facts
      = db.facts.map (fun g =>
          if g.id == factId then applyRevisionUpdates now ncv nc ni g else g) := by
  unfold addRevision
  split_ifs <;> simp [linkFactSource_facts, upsertSource_facts]

/-- The mutable-state outcome of addRevision on one existing fact: the
    targeted row is rewritten (lastUpdated set to now; currentValue,
    confidence and importance overwritten exactly for the truthy
    arguments; every other field kept), and every other row is kept
    unchanged. -/
def AddRevisionOutcome (db : DB) (now : Int) (factId : Nat) (rev : RevInput)
    (ncv nc ni : Option String) (f : Fact) : Prop :=
  applyRevisionUpdates now ncv nc ni f ∈ (addRevision db now factId rev ncv nc ni).1.facts
    ∧ (applyRevisionUpdates now ncv nc ni f).lastUpdated = now
    ∧ (∀ s, ncv = some s → s.isEmpty = false →
        (applyRevisionUpdates now ncv nc ni f).currentValue = s)
    ∧ (truthyS ncv = false →
        (applyRevisionUpdates now ncv nc ni f).currentValue = f.currentValue)
    ∧ (∀ s, nc = some s → s.isEmpty = false →
        (applyRevisionUpdates now ncv nc ni f).confidence = s)
    ∧ (truthyS nc = false →
        (applyRevisionUpdates now ncv nc ni f).confidence = f.confidence)
    ∧ (∀ s, ni = some s → s.isEmpty = false →
        (applyRevisionUpdates now ncv nc ni f).importance = s)
    ∧ (truthyS ni = false →
        (applyRevisionUpdates now ncv nc ni f).importance = f.importance)
    ∧ (applyRevisionUpdates now ncv nc ni f).id = f.id
    ∧ (applyRevisionUpdates now ncv nc ni f).headline = f.headline
    ∧ (applyRevisionUpdates now ncv nc ni f).category = f.category
    ∧ (applyRevisionUpdates now ncv nc ni f).tags = f.tags
    ∧ (applyRevisionUpdates now ncv nc ni f).isActive = f.isActive
    ∧ (applyRevisionUpdates now ncv nc ni f).createdAt = f.createdAt
    ∧ (∀ g ∈ db.facts, g.id ≠ factId →
        g ∈ (addRevision db now factId rev ncv nc ni).1.facts)

/-- C4 as amended: addRevision sets the targeted fact's lastUpdated to now
    and overwrites currentValue/confidence/importance exactly when the
    corresponding argument is supplied with a non-empty string (JavaScript
    truthiness; a supplied empty string behaves like an omitted argument,
    refuting the original claim); all other fields and all other facts are
    unchanged. -/
theorem addRevision_update_frame (db : DB) (now : Int) (factId : Nat) (rev : RevInput)
    (ncv nc ni : Option String) (f : Fact) (hmem : f ∈ db.facts)
    (hid : f.id = factId) :
    AddRevisionOutcome db now factId rev ncv nc ni f := by
  obtain ⟨h1, h2, h3, h4, h5, h6⟩ := applyRevisionUpdates_frame now ncv nc ni f
  refine ⟨?_, applyRevisionUpdates_lastUpdated now ncv nc ni f,
    fun s hsv hse => applyRevisionUpdates_currentValue_some now ncv nc ni f s hsv hse,
    fun hf => applyRevisionUpdates_currentValue_none now ncv nc ni f hf,
    fun s hsv hse => applyRevisionUpdates_confidence_some now ncv nc ni f s hsv hse,
    fun hf => applyRevisionUpdates_confidence_none now ncv nc ni f hf,
    fun s hsv hse => applyRevisionUpdates_importance_some now ncv nc ni f s hsv hse,
    fun hf => applyRevisionUpdates_importance_none now ncv nc ni f hf,
    h1, h2, h3, h4, h5, h6, ?_⟩
  · rw [addRevision_facts_eq]
    have hmap := List.mem_map_of_mem
      (fun g => if g.id == factId then applyRevisionUpdates now ncv nc ni g else g) hmem
    simpa [hid] using hmap
  · intro g hg hgne
    rw [addRevision_facts_eq]
    have hmap := List.mem_map_of_mem
      (fun g => if g.id == factId then applyRevisionUpdates now ncv nc ni g else g) hg
    simpa [hgne] using hmap

/-- Witness for the amended C4: updating factA with a supplied non-empty
    currentValue. -/
theorem addRevision_update_frame_witness :
    AddRevisionOutcome dbOneFact 50 0 revU (some "6%") none none factA :=
  addRevision_update_frame dbOneFact 50 0 revU (some "6%") none none factA
    (by decide) (by decide)

-- ==========================================================================
-- C8 — toggleBookmark toggle law
-- ==========================================================================

/-- The three-call toggle behavior starting from a state with no (user,
    fact) bookmark row: true, then false, then true, with the bookmark
    table gaining exactly that one row, returning to its original state,
    and gaining exactly one row again — while facts and mutes stay
    untouched. -/
def ToggleBookmarkSpec (db : DB) (now1 now2 now3 : Int) (u f : Nat) : Prop :=
  let r1 := toggleBookmark db now1 u f
  let r2 := toggleBookmark r1.1 now2 u f
  let r3 := toggleBookmark r2.1 now3 u f
  r1.2 = true ∧ r2.2 = false ∧ r3.2 = true
    ∧ r1.1.userBookmarks = db.userBookmarks ++ [Bookmark.mk db.nextId u f now1]
    ∧ r2.1.userBookmarks = db.userBookmarks
    ∧ r3.1.userBookmarks = db.userBookmarks ++ [Bookmark.mk (db.nextId + 1) u f now3]
    ∧ r1.1.facts = db.facts ∧ r2.1.facts = db.facts ∧ r3.1.facts = db.facts
    ∧ r1.1.userMuted = db.userMuted ∧ r2.1.userMuted = db.userMuted
    ∧ r3.1.userMuted = db.userMuted

/-- C8: for every user u and fact f, starting from a state with no
    bookmark row for (u, f) (and with row identifiers below the allocation
    counter, as the store guarantees), toggleBookmark returns true, false,
    true over three calls and each call flips exactly the presence of that
    one row. -/
theorem toggleBookmark_toggle_law (db : DB) (now1 now2 now3 : Int) (u f : Nat)
    (hno : ∀ b ∈ db.userBookmarks, ¬(b.userId = u ∧ b.factId = f))
    (hfresh : ∀ b ∈ db.userBookmarks, b.id < db.nextId) :
    ToggleBookmarkSpec db now1 now2 now3 u f := by
  have hfind : db.userBookmarks.find? (fun b => b.userId == u && b.factId == f) = none :=
    List.find?_eq_none.mpr (fun b hb => by simpa using hno b hb)
  have hfind2 : (db.userBookmarks ++ [Bookmark.mk db.nextId u f now1]).find?
      (fun b => b.userId == u && b.factId == f) = some (Bookmark.mk db.nextId u f now1) := by
    rw [find?_append_none hfind]
    simp [List.find?]
  have hdel : (db.userBookmarks ++ [Bookmark.mk db.nextId u f now1]).filter
      (fun b => !(b.id == db.nextId)) = db.userBookmarks := by
    rw [List.filter_append]
    have hl : db.userBookmarks.filter (fun b => !(b.id == db.nextId))
        = db.userBookmarks :=
      List.filter_eq_self.mpr (fun b hb => by
        have hlt := hfresh b hb
        simp only [Bool.not_eq_eq_eq_not, Bool.not_true, beq_eq_false_iff_ne, ne_eq]
        omega)
    have hr : [Bookmark.mk db.nextId u f now1].filter
        (fun b => !(b.id == db.nextId)) = [] := by simp
    rw [hl, hr, List.append_nil]
  have E1 : toggleBookmark db now1 u f
      = ({ db with
            userBookmarks := db.userBookmarks ++ [Bookmark.mk db.nextId u f now1]
            nextId := db.nextId + 1 }, true) := by
    simp only [toggleBookmark, hfind]
  have E2 : toggleBookmark
      { db with
          userBookmarks := db.userBookmarks ++ [Bookmark.mk db.nextId u f now1]
          nextId := db.nextId + 1 } now2 u f
      = ({ db with userBookmarks := db.userBookmarks, nextId := db.nextId + 1 }, false) := by
    simp only [toggleBookmark, hfind2]
    rw [hdel]
  have E3 : toggleBookmark
      { db with userBookmarks := db.userBookmarks, nextId := db.nextId + 1 } now3 u f
      = ({ db with
            userBookmarks := db.userBookmarks ++ [Bookmark.mk (db.nextId + 1) u f now3]
            nextId := db.nextId + 1 + 1 }, true) := by
    simp only [toggleBookmark, hfind]
  simp only [ToggleBookmarkSpec, E1, E2, E3]
  simp

/-- Witness for C8 starting from the empty database with user 1 and
    fact 2. -/
theorem toggleBookmark_toggle_law_witness :
    ToggleBookmarkSpec dbEmpty 5 6 7 1 2 :=
  toggleBookmark_toggle_law dbEmpty 5 6 7 1 2 (by decide) (by decide)

-- ==========================================================================
-- C9 — getFactById ignores the soft-delete flag
-- ==========================================================================

theorem id_mem_map_hydrate {db : DB} {uid : Option Nat} {L : List Fact} {i : Nat} :
    i ∈ (L.map (fun row => hydrateFact db row uid)).map (fun fw => fw.id)
      ↔ ∃ row ∈ L, row.id = i := by
  rw [List.map_map]
  constructor
  · intro hm
    rcases List.mem_map.mp hm with ⟨row, hrow, he⟩
    exact ⟨row, hrow, he⟩
  · rintro ⟨row, hrow, rfl⟩
    exact List.mem_map.mpr ⟨row, hrow, rfl⟩

theorem mem_of_mem_take_sortDescBy {key : α → Int} {l : List α} {n m : Nat} {x : α}
    (h : x ∈ ((sortDescBy key l).drop m).take n) : x ∈ l :=
  mem_sortDescBy.mp ((List.drop_sublist _ _).subset ((List.take_sublist _ _).subset h))

/-- The read-path visibility of an inactive fact: getFactById still returns
    it fully hydrated, while getFacts (for every filter and page),
    getDisputedFacts and searchFacts (for every query) never surface its
    identifier. -/
def InactiveFactSpec (db : DB) (uid : Option Nat) (f : Fact) : Prop :=
  getFactById db f.id uid = some (hydrateFact db f uid)
    ∧ (∀ q : FactsQuery, f.id ∉ (getFacts db q).1.map (fun fw => fw.id))
    ∧ f.id ∉ (getDisputedFacts db uid).map (fun fw => fw.id)
    ∧ (∀ s : String, f.id ∉ (searchFacts db s uid).map (fun fw => fw.id))

/-- C9: getFactById does not consult the active soft-delete flag — an
    inactive fact is still returned fully hydrated — even though getFacts,
    getDisputedFacts and searchFacts all exclude inactive facts. -/
theorem getFactById_ignores_soft_delete (db : DB) (uid : Option Nat) (f : Fact)
    (hmem : f ∈ db.facts) (hinact : f.isActive = false)
    (hnd : (db.facts.map Fact.id).Nodup) :
    InactiveFactSpec db uid f := by
  have hinj : ∀ g ∈ db.facts, g.id = f.id → g = f := fun g hg he =>
    List.inj_on_of_nodup_map hnd hg hmem he
  refine ⟨?_, ?_, ?_, ?_⟩
  · simp [getFactById, find?_id_of_nodup hnd hmem]
  · intro q hq
    simp only [getFacts] at hq
    rw [id_mem_map_hydrate] at hq
    rcases hq with ⟨row, hrow, hrid⟩
    have hrow2 : row ∈ db.facts.filter (factMatchesQuery q) :=
      mem_of_mem_take_sortDescBy hrow
    obtain ⟨hrmem, hrpred⟩ := List.mem_filter.mp hrow2
    have hrf : row = f := hinj row hrmem hrid
    subst hrf
    simp [factMatchesQuery, hinact] at hrpred
  · intro hq
    simp only [getDisputedFacts] at hq
    rw [id_mem_map_hydrate] at hq
    rcases hq with ⟨row, hrow, hrid⟩
    have hrow2 : row ∈ db.facts.filter
        (fun g => g.confidence == "disputed" && g.isActive) :=
      mem_sortDescBy.mp hrow
    obtain ⟨hrmem, hrpred⟩ := List.mem_filter.mp hrow2
    have hrf : row = f := hinj row hrmem hrid
    subst hrf
    simp [hinact] at hrpred
  · intro s hq
    simp only [searchFacts] at hq
    rw [id_mem_map_hydrate] at hq
    rcases hq with ⟨row, hrow, hrid⟩
    rcases List.mem_append.mp hrow with h | h
    · have hrow2 : row ∈ db.facts.filter (factLevelMatch s) := by
        simp only [searchRows] at h
        exact mem_sortDescBy.mp ((List.take_sublist _ _).subset h)
      obtain ⟨hrmem, hrpred⟩ := List.mem_filter.mp hrow2
      have hrf : row = f := hinj row hrmem hrid
      subst hrf
      simp [factLevelMatch, hinact] at hrpred
    · simp only [searchExtra] at h
      obtain ⟨hrmem, hrpred⟩ := List.mem_filter.mp h
      have hrf : row = f := hinj row hrmem hrid
      subst hrf
      simp [hinact] at hrpred

/-- Witness for C9 at a database holding one inactive fact. -/
theorem getFactById_ignores_soft_delete_witness :
    InactiveFactSpec dbInactive none factInactive :=
  getFactById_ignores_soft_delete dbInactive none factInactive
    (by decide) (by decide) (by decide)

-- ==========================================================================
-- C10 — trending selection ignores the soft-delete flag
-- ==========================================================================

/-- C10: an inactive fact with a revision inside the 24-hour window is
    counted by the trending grouping and, when the grouped facts fit the
    limit, returned by getTrendingFacts — the trending selection never
    consults the active flag. -/
theorem getTrendingFacts_includes_inactive (db : DB) (now : Int) (limit : Nat)
    (uid : Option Nat) (f : Fact) (hmem : f ∈ db.facts) (hinact : f.isActive = false)
    (hnd : (db.facts.map Fact.id).Nodup)
    (hrev : ∃ r ∈ db.factRevisions, r.factId = f.id ∧ now - dayMs < r.timestamp)
    (hfit : (trendingPairs db now).length ≤ limit) :
    (f.id, revCount24 db now f.id) ∈ trendingPairs db now
      ∧ f.id ∈ (getTrendingFacts db now limit uid).map (fun fw => fw.id) := by
  rcases hrev with ⟨r, hrmem, hrfid, hrwin⟩
  have hrrec : r ∈ recentRevisions db now :=
    List.mem_filter.mpr ⟨hrmem, by simpa using hrwin⟩
  have hidrec : f.id ∈ (recentRevisions db now).map (fun r => r.factId) := by
    rw [← hrfid]
    exact List.mem_map_of_mem _ hrrec
  have hidocc : f.id ∈ firstOccurrences ((recentRevisions db now).map (fun r => r.factId)) :=
    mem_firstOccurrences.mpr hidrec
  have hpair : (f.id, revCount24 db now f.id) ∈ trendingPairs db now := by
    simpa [trendingPairs, revCount24] using
      List.mem_map_of_mem
        (fun fid => (fid, ((recentRevisions db now).filter (fun r => r.factId == fid)).length))
        hidocc
  refine ⟨hpair, ?_⟩
  have hlen : (sortDescBy (fun p => ((p.2 : Nat) : Int)) (trendingPairs db now)).length
      = (trendingPairs db now).length :=
    (sortDescBy_perm _ _).length_eq
  have hsel : trendingSelected db now limit
      = sortDescBy (fun p => ((p.2 : Nat) : Int)) (trendingPairs db now) := by
    unfold trendingSelected
    exact List.take_of_length_le (by rw [hlen]; exact hfit)
  have hpairsel : (f.id, revCount24 db now f.id) ∈ trendingSelected db now limit := by
    rw [hsel]
    exact mem_sortDescBy.mpr hpair
  have hne : (trendingSelected db now limit).isEmpty = false := by
    rcases htr : trendingSelected db now limit with _ | ⟨p, rest⟩
    · rw [htr] at hpairsel
      cases hpairsel
    · rfl
  have hfind : db.facts.find? (fun g => g.id == f.id) = some f :=
    find?_id_of_nodup hnd hmem
  have hfmem : f ∈ ((trendingSelected db now limit).map (fun p => p.1)).filterMap
      (fun fid => db.facts.find? (fun g => g.id == fid)) := by
    refine List.mem_filterMap.mpr ⟨f.id, ?_, hfind⟩
    exact List.mem_map.mpr ⟨(f.id, revCount24 db now f.id), hpairsel, rfl⟩
  simp only [getTrendingFacts, hne, Bool.false_eq_true, if_false]
  rw [id_mem_map_hydrate]
  exact ⟨f, hfmem, rfl⟩

/-- Witness for C10: the inactive fact of dbInactive is trending. -/
theorem getTrendingFacts_includes_inactive_witness :
    (7, revCount24 dbInactive 1000 7) ∈ trendingPairs dbInactive 1000
      ∧ 7 ∈ (getTrendingFacts dbInactive 1000 5 none).map (fun fw => fw.id) :=
  getTrendingFacts_includes_inactive dbInactive 1000 5 none factInactive
    (by decide) (by decide) (by decide) (by decide) (by decide)

-- ==========================================================================
-- C6 — searchFacts deduplication and ordering
-- ==========================================================================

/-- The deduplication and ordering contract of searchFacts: no fact
    identifier appears twice; the result is the fact-level matches (sorted
    by lastUpdated descending, all satisfying the fact-level criterion)
    followed by the revision-only matches (active facts reached through a
    matching revision whose identifier is absent from the fact-level
    part). -/
def SearchSpec (db : DB) (q : String) (uid : Option Nat) : Prop :=
  ((searchFacts db q uid).map (fun fw => fw.id)).Nodup
    ∧ searchFacts db q uid
        = (searchRows db q).map (fun row => hydrateFact db row uid)
          ++ (searchExtra db q).map (fun row => hydrateFact db row uid)
    ∧ (searchRows db q).Pairwise (fun a b => b.lastUpdated ≤ a.lastUpdated)
    ∧ (∀ f ∈ searchRows db q, f ∈ db.facts ∧ factLevelMatch q f = true)
    ∧ (∀ f ∈ searchExtra db q, f ∈ db.facts ∧ f.isActive = true
        ∧ (∃ r ∈ db.factRevisions, r.factId = f.id ∧ revisionMatch q r = true)
        ∧ (∀ g ∈ searchRows db q, g.id ≠ f.id))

/-- C6 as amended: each returned fact appears exactly once (deduplicated
    by identifier), fact-level matches first in lastUpdated-descending
    order, revision-only matches appended — but subject to the source's
    result caps (at most 50 fact-level rows and 20 revision-hit
    identifiers), which refute the unqualified completeness of the
    original claim. -/
theorem searchFacts_spec (db : DB) (q : String) (uid : Option Nat)
    (hnd : (db.facts.map Fact.id).Nodup) : SearchSpec db q uid := by
  have hAppend : searchFacts db q uid
      = (searchRows db q).map (fun row => hydrateFact db row uid)
        ++ (searchExtra db q).map (fun row => hydrateFact db row uid) := by
    unfold searchFacts
    exact List.map_append _ _ _
  have hRows : ∀ f ∈ searchRows db q, f ∈ db.facts ∧ factLevelMatch q f = true := by
    intro f hf
    have hf2 : f ∈ db.facts.filter (factLevelMatch q) := by
      simp only [searchRows] at hf
      exact mem_sortDescBy.mp ((List.take_sublist _ _).subset hf)
    exact ⟨(List.mem_filter.mp hf2).1, (List.mem_filter.mp hf2).2⟩
  have hExtra : ∀ f ∈ searchExtra db q, f ∈ db.facts ∧ f.isActive = true
      ∧ (∃ r ∈ db.factRevisions, r.factId = f.id ∧ revisionMatch q r = true)
      ∧ (∀ g ∈ searchRows db q, g.id ≠ f.id) := by
    intro f hf
    simp only [searchExtra] at hf
    obtain ⟨hfmem, hfpred⟩ := List.mem_filter.mp hf
    obtain ⟨hc, ha⟩ := (Bool.and_eq_true _ _).mp hfpred
    have hmid : f.id ∈ searchMissingIds db q := List.mem_of_elem_eq_true hc
    obtain ⟨hhit, hnotrow⟩ := List.mem_filter.mp hmid
    have hnotany : (searchRows db q).any (fun g => g.id == f.id) = false := by
      cases hda : (searchRows db q).any (fun g => g.id == f.id)
      · rfl
      · rw [hda] at hnotrow
        cases hnotrow
    have hnone : ∀ g ∈ searchRows db q, g.id ≠ f.id := by
      intro g hg he
      have hgt : (g.id == f.id) = true := by simpa using he
      have hcontra : (searchRows db q).any (fun g => g.id == f.id) = true :=
        List.any_eq_true.mpr ⟨g, hg, hgt⟩
      rw [hnotany] at hcontra
      cases hcontra
    have hrev : ∃ r ∈ db.factRevisions, r.factId = f.id ∧ revisionMatch q r = true := by
      have h1 : f.id ∈ firstOccurrences
          ((db.factRevisions.filter (revisionMatch q)).map (fun r => r.factId)) := by
        simp only [searchRevisionHitIds] at hhit
        exact (List.take_sublist _ _).subset hhit
      have h2 := mem_firstOccurrences.mp h1
      rcases List.mem_map.mp h2 with ⟨r, hrmem, hrid⟩
      obtain ⟨hr1, hr2⟩ := List.mem_filter.mp hrmem
      exact ⟨r, hr1, hrid, hr2⟩
    exact ⟨hfmem, ha, hrev, hnone⟩
  have hids : (searchFacts db q uid).map (fun fw => fw.id)
      = (searchRows db q).map Fact.id ++ (searchExtra db q).map Fact.id := by
    rw [hAppend, List.map_append, List.map_map, List.map_map]
    rfl
  have hRowsNodup : ((searchRows db q).map Fact.id).Nodup := by
    have h1 : ((db.facts.filter (factLevelMatch q)).map Fact.id).Nodup :=
      hnd.sublist ((db.facts.filter_sublist).map Fact.id)
    have h2 : ((sortDescBy (fun f => f.lastUpdated)
        (db.facts.filter (factLevelMatch q))).map Fact.id).Nodup :=
      (((sortDescBy_perm _ _).map Fact.id).nodup_iff).mpr h1
    exact h2.sublist ((List.take_sublist _ _).map Fact.id)
  have hExtraNodup : ((searchExtra db q).map Fact.id).Nodup :=
    hnd.sublist ((db.facts.filter_sublist).map Fact.id)
  have hDisj : ((searchRows db q).map Fact.id).Disjoint ((searchExtra db q).map Fact.id) := by
    intro a ha1 ha2
    rcases List.mem_map.mp ha1 with ⟨g, hg, hga⟩
    rcases List.mem_map.mp ha2 with ⟨f, hf, hfa⟩
    exact (hExtra f hf).2.2.2 g hg (hga.trans hfa.symm)
  refine ⟨?_, hAppend, ?_, hRows, hExtra⟩
  · rw [hids]
    exact hRowsNodup.append hExtraNodup hDisj
  · exact List.Pairwise.sublist (List.take_sublist _ _) (pairwise_sortDescBy _ _)

/-- Witness for the amended C6 on the two-fact database of the search
    scenario: one headline match, one revision-only match. -/
theorem searchFacts_spec_witness : SearchSpec dbSearch2 "inflation" none :=
  searchFacts_spec dbSearch2 "inflation" none (by decide)

/-- C6 counterexample: with 51 active facts all matching the query at the
    fact level, the 51st (oldest) matching fact is returned zero times —
    refuting the claim that searchFacts returns each matching fact exactly
    once. -/
theorem searchFacts_misses_matching_fact :
    mkFactQ 50 ∈ dbSearch51.facts
      ∧ (mkFactQ 50).isActive = true
      ∧ factLevelMatch "q" (mkFactQ 50) = true
      ∧ ((searchFacts dbSearch51 "q" none).map (fun fw => fw.id)).count (mkFactQ 50).id
          = 0 := by
  decide

-- ==========================================================================
-- C5 — getTrendingFacts ranking, order, limit and fallback
-- ==========================================================================

/-- The getTrendingFacts contract: when no revision lies in the trailing
    24-hour window the result is the limit most recently updated active
    facts, hydrated; otherwise the result holds at most limit facts,
    descending in their in-window revision count, and its identifiers are
    exactly the selected trending identifiers (in trending order) that
    exist in the facts table. -/
def TrendingSpec (db : DB) (now : Int) (limit : Nat) (uid : Option Nat) : Prop :=
  (recentRevisions db now = [] →
    getTrendingFacts db now limit uid
      = ((sortDescBy (fun g => g.lastUpdated)
          (db.facts.filter (fun g => g.isActive))).take limit).map
          (fun row => hydrateFact db row uid))
    ∧ (recentRevisions db now ≠ [] →
        (getTrendingFacts db now limit uid).length ≤ limit
        ∧ ((getTrendingFacts db now limit uid).map
            (fun fw => revCount24 db now fw.id)).Pairwise (fun a b => b ≤ a)
        ∧ (getTrendingFacts db now limit uid).map (fun fw => fw.id)
            = ((trendingSelected db now limit).map (fun p => p.1)).filter
                (fun fid => db.facts.any (fun g => g.id == fid)))

/-- C5: getTrendingFacts counts revisions per fact inside the 24-hour
    window, orders the facts descending by that count, returns at most
    limit hydrated facts in exactly that order, and falls back to the
    limit most recently updated active facts when no revision is in the
    window. -/
theorem getTrendingFacts_spec (db : DB) (now : Int) (limit : Nat) (uid : Option Nat) :
    TrendingSpec db now limit uid := by
  constructor
  · intro h
    have hpairs : trendingPairs db now = [] := by
      simp [trendingPairs, h, firstOccurrences]
    have hsel : trendingSelected db now limit = [] := by
      simp [trendingSelected, hpairs, sortDescBy]
    have hq : db.facts.filter
        (factMatchesQuery (FactsQuery.mk none none none limit 0 uid))
        = db.facts.filter (fun g => g.isActive) :=
      List.filter_congr (fun g _ => by simp [factMatchesQuery, matchOpt])
    simp only [getTrendingFacts, hsel, List.isEmpty_nil, if_true]
    simp only [getFacts, hq, List.drop_zero]
  · intro h
    obtain ⟨r, hr⟩ := List.exists_mem_of_ne_nil _ h
    have hpmem : (r.factId, revCount24 db now r.factId) ∈ trendingPairs db now := by
      have h1 : r.factId ∈ (recentRevisions db now).map (fun x => x.factId) :=
        List.mem_map_of_mem _ hr
      have h2 := mem_firstOccurrences.mpr h1
      simpa [trendingPairs, revCount24] using
        List.mem_map_of_mem
          (fun fid => (fid, ((recentRevisions db now).filter
            (fun x => x.factId == fid)).length)) h2
    cases hsel : (trendingSelected db now limit).isEmpty
    case false =>
      have hres : getTrendingFacts db now limit uid
          = (((trendingSelected db now limit).map (fun p => p.1)).filterMap
              (fun fid => db.facts.find? (fun g => g.id == fid))).map
              (fun row => hydrateFact db row uid) := by
        simp only [getTrendingFacts, hsel, Bool.false_eq_true, if_false]
      refine ⟨?_, ?_, ?_⟩
      · rw [hres, List.length_map]
        calc (((trendingSelected db now limit).map (fun p => p.1)).filterMap
                (fun fid => db.facts.find? (fun g => g.id == fid))).length
            ≤ ((trendingSelected db now limit).map (fun p => p.1)).length :=
              List.length_filterMap_le _ _
          _ = (trendingSelected db now limit).length := List.length_map _ _
          _ ≤ limit := by
              unfold trendingSelected
              exact List.length_take_le _ _
      · have hPW : (trendingSelected db now limit).Pairwise
            (fun a b => ((b.2 : Nat) : Int) ≤ ((a.2 : Nat) : Int)) :=
          List.Pairwise.sublist (List.take_sublist _ _) (pairwise_sortDescBy _ _)
        have hmemc : ∀ p ∈ trendingSelected db now limit,
            p.2 = revCount24 db now p.1 := by
          intro p hp
          have hp2 : p ∈ trendingPairs db now :=
            mem_sortDescBy.mp ((List.take_sublist _ _).subset hp)
          simp only [trendingPairs] at hp2
          rcases List.mem_map.mp hp2 with ⟨fid, _, he⟩
          rw [← he]
          rfl
        have hPW2 : (trendingSelected db now limit).Pairwise
            (fun a b => revCount24 db now b.1 ≤ revCount24 db now a.1) := by
          refine List.Pairwise.imp_of_mem ?_ hPW
          intro a b ha hb hab
          rw [← hmemc a ha, ← hmemc b hb]
          exact_mod_cast hab
        have hPWids : ((trendingSelected db now limit).map (fun p => p.1)).Pairwise
            (fun a b => revCount24 db now b ≤ revCount24 db now a) :=
          hPW2.map _ (fun a b hab => hab)
        have hPW3 : (((trendingSelected db now limit).map (fun p => p.1)).filterMap
            (fun fid => db.facts.find? (fun g => g.id == fid))).Pairwise
            (fun x y => revCount24 db now y.id ≤ revCount24 db now x.id) := by
          refine pairwise_filterMap ?_ hPWids
          intro a b x y hab hfa hfb
          have hxa : x.id = a := by
            have := List.find?_some hfa
            simpa using this
          have hyb : y.id = b := by
            have := List.find?_some hfb
            simpa using this
          rw [hxa, hyb]
          exact hab
        rw [hres, List.map_map]
        exact hPW3.map _ (fun x y hxy => hxy)
      · rw [hres, List.map_map]
        exact map_id_filterMap_find _ _
    case true =>
      have hselnil : trendingSelected db now limit = [] := by
        rcases hx : trendingSelected db now limit with _ | ⟨p, rest⟩
        · rfl
        · rw [hx] at hsel
          cases hsel
      have hsne : sortDescBy (fun p => ((p.2 : Nat) : Int)) (trendingPairs db now) ≠ [] := by
        intro hnil
        have hm : (r.factId, revCount24 db now r.factId)
            ∈ sortDescBy (fun p => ((p.2 : Nat) : Int)) (trendingPairs db now) :=
          mem_sortDescBy.mpr hpmem
        rw [hnil] at hm
        cases hm
      have hlim : limit = 0 := by
        unfold trendingSelected at hselnil
        rcases List.take_eq_nil_iff.mp hselnil with h0 | hnil
        · exact h0
        · exact absurd hnil hsne
      subst hlim
      have hres0 : getTrendingFacts db now 0 uid = [] := by
        simp [getTrendingFacts, hsel, getFacts]
      refine ⟨?_, ?_, ?_⟩
      · rw [hres0]
        exact Nat.le_refl 0
      · rw [hres0]
        simp
      · rw [hres0, hselnil]
        simp

/-- Witness for C5: on a database holding one fact with one in-window
    revision, the non-fallback branch yields the instantiated contract. -/
theorem getTrendingFacts_spec_witness :
    (getTrendingFacts dbInactive 1000 5 none).length ≤ 5
      ∧ ((getTrendingFacts dbInactive 1000 5 none).map
          (fun fw => revCount24 dbInactive 1000 fw.id)).Pairwise (fun a b => b ≤ a)
      ∧ (getTrendingFacts dbInactive 1000 5 none).map (fun fw => fw.id)
          = ((trendingSelected dbInactive 1000 5).map (fun p => p.1)).filter
              (fun fid => dbInactive.facts.any (fun g => g.id == fid)) :=
  (getTrendingFacts_spec dbInactive 1000 5 none).2 (by decide)

/-- C4 counterexample: an explicitly supplied empty-string newCurrentValue
    is not applied — the fact keeps its prior currentValue "5%", refuting
    the claim that every explicitly supplied argument overwrites. -/
theorem addRevision_ignores_supplied_empty_string :
    ((addRevision dbOneFact 50 0 revU (some "") none none).1.facts.map
        (fun f => f.currentValue)) = ["5%"]
      ∧ some "" ≠ (none : Option String) ∧ "5%" ≠ "" := by
  decide

end Ledger
